import Mathlib

/-!
Verification of the Track-State Counting Engine of the
Counting-people-in-public-Area repository.

The embedding follows `src/main.py` (the `people_counter` frame loop),
`src/dashboard.py` (the polling dashboard), and `src/admin_settings.py`
(`SettingsDatabase.update_setting`).  Machine integers are modelled as
`Int`/`Nat` (Python integers are unbounded), the Python dict
`track_history` as a function `Nat → Option Int`, and the Python set
`counted_ids` as a `Finset Nat`.
-/

namespace PeopleCounter

/-- Outcome of the crossing decision of `main.py` lines 70–75
(spec §4.2 Crossing Detector). -/
inductive CrossingDecision where
  | NoCrossing
  | EnteredDirection
  | ExitedDirection
deriving DecidableEq

/-- A confirmed-or-tentative track as consumed by the loop body of
`main.py` lines 58–64: its id, the top and bottom coordinates of its
bounding box (the only coordinates the counting logic reads), and the
tracker's confirmation flag (line 59). -/
structure Track where
  track_id : Nat
  t : Int
  b : Int
  confirmed : Bool
deriving DecidableEq

/-- The mutable engine state of `main.py` lines 29–32: the two counters,
the per-track last-position dict and the set of already-counted ids. -/
@[ext] structure CounterState where
  entered : Nat
  exited : Nat
  track_history : Nat → Option Int
  counted_ids : Finset Nat

/-- Vertical centroid of a bounding box, `cy = (t + b) // 2` of
`main.py` line 64; Python `//` is floor division, hence `Int.fdiv`. -/
def centroid_y (t b : Int) : Int := (t + b).fdiv 2

/-- Position of one observation along the boundary axis. -/
def obsCy (o : Track) : Int := centroid_y o.t o.b

/-- The crossing decision of `main.py` lines 70–75: the `if`/`elif`
pair on the previous and current centroid against the line with the
hysteresis band `offset`. -/
def decide_crossing (prev_cy cy line_y offset : Int) : CrossingDecision :=
  if prev_cy < line_y - offset ∧ cy > line_y + offset then .EnteredDirection
  else if prev_cy > line_y + offset ∧ cy < line_y - offset then .ExitedDirection
  else .NoCrossing

/-- One iteration of the per-track loop of `main.py` lines 58–75:
skip unconfirmed tracks (lines 59–60), read the previous centroid with
the current one as default (line 66), store the current centroid
(line 67), and when the id has not been counted yet apply the crossing
decision and update the counters and the counted set (lines 69–75). -/
def processObs (line_y offset : Int) (s : CounterState) (o : Track) : CounterState :=
  if o.confirmed = false then s
  else
    let cy := obsCy o
    let prev_cy := (s.track_history o.track_id).getD cy
    let s1 : CounterState :=
      { s with track_history := Function.update s.track_history o.track_id (some cy) }
    if o.track_id ∈ s.counted_ids then s1
    else
      match decide_crossing prev_cy cy line_y offset with
      | .EnteredDirection =>
          { s1 with entered := s1.entered + 1,
                    counted_ids := insert o.track_id s1.counted_ids }
      | .ExitedDirection =>
          { s1 with exited := s1.exited + 1,
                    counted_ids := insert o.track_id s1.counted_ids }
      | .NoCrossing => s1

/-- The crossing event emitted by one loop iteration (spec §4.3 step 4):
`some (id, direction)` exactly when the iteration increments a counter,
`none` otherwise. -/
def stepEvent (line_y offset : Int) (s : CounterState) (o : Track) :
    Option (Nat × CrossingDecision) :=
  if o.confirmed = false then none
  else if o.track_id ∈ s.counted_ids then none
  else
    match decide_crossing ((s.track_history o.track_id).getD (obsCy o)) (obsCy o)
        line_y offset with
    | .NoCrossing => none
    | d => some (o.track_id, d)

/-- One whole frame of `main.py`: the loop over the frame's track set. -/
def processFrame (line_y offset : Int) (obs : List Track) (s : CounterState) : CounterState :=
  obs.foldl (processObs line_y offset) s

/-- Events emitted while processing one frame, in loop order. -/
def frameEvents (line_y offset : Int) (s : CounterState) :
    List Track → List (Nat × CrossingDecision)
  | [] => []
  | o :: rest =>
      (stepEvent line_y offset s o).toList ++
        frameEvents line_y offset (processObs line_y offset s o) rest

/-- A run of the engine over a sequence of frames (the `while` loop). -/
def processFrames (line_y offset : Int) (frames : List (List Track))
    (s : CounterState) : CounterState :=
  frames.foldl (fun s obs => processFrame line_y offset obs s) s

/-- Events emitted over a sequence of frames. -/
def runEvents (line_y offset : Int) (s : CounterState) :
    List (List Track) → List (Nat × CrossingDecision)
  | [] => []
  | f :: fs =>
      frameEvents line_y offset s f ++
        runEvents line_y offset (processFrame line_y offset f s) fs

/-- The values rendered on the frame at `main.py` lines 81–88:
`entered`, `exited`, and `inside = entered - exited` (line 81). -/
def frameDisplay (s : CounterState) : Nat × Nat × Int :=
  (s.entered, s.exited, (s.entered : Int) - (s.exited : Int))

/-- The per-frame trace of displayed triples over a run. -/
def runDisplays (line_y offset : Int) (s : CounterState) :
    List (List Track) → List (Nat × Nat × Int)
  | [] => []
  | f :: fs =>
      frameDisplay (processFrame line_y offset f s) ::
        runDisplays line_y offset (processFrame line_y offset f s) fs

/-- The metric computation of `dashboard.py` lines 46–48: `entered` and
`exited` read from the JSON payload with default `0`, and
`inside = entered - exited` computed locally. -/
def dashboard_metrics (data_entered data_exited : Option Int) : Int × Int × Int :=
  let entered := data_entered.getD 0
  let exited := data_exited.getD 0
  (entered, exited, entered - exited)

/-! Characterization of one loop iteration as an explicit delta on the
state, used to reason about commutation and invariants. -/

/-- Effect of one iteration on the counters and the counted set, as a
function of the previous stored position and of whether the id was
already counted: `(entered delta, exited delta, id added to counted)`. -/
def obsDelta (line_y offset : Int) (hist : Option Int) (already : Bool)
    (o : Track) : Nat × Nat × Bool :=
  if o.confirmed = false then (0, 0, false)
  else if already then (0, 0, false)
  else
    match decide_crossing (hist.getD (obsCy o)) (obsCy o) line_y offset with
    | .EnteredDirection => (1, 0, true)
    | .ExitedDirection => (0, 1, true)
    | .NoCrossing => (0, 0, false)

theorem processObs_char (line_y offset : Int) (s : CounterState) (o : Track) :
    processObs line_y offset s o =
      { entered := s.entered +
          (obsDelta line_y offset (s.track_history o.track_id)
            (decide (o.track_id ∈ s.counted_ids)) o).1,
        exited := s.exited +
          (obsDelta line_y offset (s.track_history o.track_id)
            (decide (o.track_id ∈ s.counted_ids)) o).2.1,
        track_history :=
          if o.confirmed = true then
            Function.update s.track_history o.track_id (some (obsCy o))
          else s.track_history,
        counted_ids :=
          if (obsDelta line_y offset (s.track_history o.track_id)
              (decide (o.track_id ∈ s.counted_ids)) o).2.2 = true then
            insert o.track_id s.counted_ids
          else s.counted_ids } := by
  unfold processObs obsDelta
  cases hc : o.confirmed with
  | false => simp
  | true =>
    by_cases hm : o.track_id ∈ s.counted_ids
    · simp [hm]
    · simp only [hm, decide_False, Bool.false_eq_true, if_false, if_true,
        Bool.true_eq_false, reduceIte, decide_eq_true_eq]
      cases hd : decide_crossing ((s.track_history o.track_id).getD (obsCy o))
          (obsCy o) line_y offset <;> simp

theorem stepEvent_char (line_y offset : Int) (s : CounterState) (o : Track) :
    stepEvent line_y offset s o =
      (if (obsDelta line_y offset (s.track_history o.track_id)
          (decide (o.track_id ∈ s.counted_ids)) o).2.2 = true then
        some (o.track_id,
          decide_crossing ((s.track_history o.track_id).getD (obsCy o)) (obsCy o)
            line_y offset)
      else none) := by
  unfold stepEvent obsDelta
  cases hc : o.confirmed with
  | false => simp
  | true =>
    by_cases hm : o.track_id ∈ s.counted_ids
    · simp [hm]
    · simp only [hm, decide_False, Bool.false_eq_true, if_false, if_true,
        Bool.true_eq_false, reduceIte, decide_eq_true_eq]
      cases hd : decide_crossing ((s.track_history o.track_id).getD (obsCy o))
          (obsCy o) line_y offset <;> simp [hd]

/-- When the delta adds the id to the counted set, the id was not
yet counted and exactly one counter is incremented. -/
theorem obsDelta_adds (line_y offset : Int) (hist : Option Int) (already : Bool)
    (o : Track)
    (h : (obsDelta line_y offset hist already o).2.2 = true) :
    already = false ∧
      (obsDelta line_y offset hist already o).1 +
        (obsDelta line_y offset hist already o).2.1 = 1 := by
  unfold obsDelta at h ⊢
  cases hc : o.confirmed with
  | false => simp [hc] at h
  | true =>
    cases ha : already with
    | true => simp [hc, ha] at h
    | false =>
      simp only [hc, ha, Bool.true_eq_false, if_false, reduceIte, true_and]
      cases hd : decide_crossing (hist.getD (obsCy o)) (obsCy o) line_y offset <;>
        simp [hd] at h ⊢

/-- When the delta does not add the id, neither counter changes. -/
theorem obsDelta_not_adds (line_y offset : Int) (hist : Option Int) (already : Bool)
    (o : Track)
    (h : (obsDelta line_y offset hist already o).2.2 = false) :
    (obsDelta line_y offset hist already o).1 = 0 ∧
      (obsDelta line_y offset hist already o).2.1 = 0 := by
  unfold obsDelta at h ⊢
  cases hc : o.confirmed with
  | false => simp
  | true =>
    cases ha : already with
    | true => simp
    | false =>
      simp only [hc, ha, Bool.true_eq_false, if_false, reduceIte] at h ⊢
      cases hd : decide_crossing (hist.getD (obsCy o)) (obsCy o) line_y offset <;>
        simp [hd] at h ⊢

/-- An already-counted id produces a zero delta. -/
theorem obsDelta_already (line_y offset : Int) (hist : Option Int) (o : Track) :
    obsDelta line_y offset hist true o = (0, 0, false) := by
  unfold obsDelta
  cases hc : o.confirmed <;> simp

/-- An iteration whose crossing decision is `NoCrossing` leaves both
counters unchanged and emits no event. -/
theorem processObs_of_no_crossing (line_y offset : Int) (s : CounterState) (o : Track)
    (h : decide_crossing ((s.track_history o.track_id).getD (obsCy o)) (obsCy o)
      line_y offset = .NoCrossing) :
    (processObs line_y offset s o).entered = s.entered ∧
      (processObs line_y offset s o).exited = s.exited ∧
      stepEvent line_y offset s o = none := by
  unfold processObs stepEvent
  cases hc : o.confirmed with
  | false => simp
  | true =>
    by_cases hm : o.track_id ∈ s.counted_ids
    · simp [hm]
    · simp [hm, h]

/-- C1: the crossing decision is `EnteredDirection` iff the previous
position is below `line - band` and the current one above `line + band`;
`ExitedDirection` iff symmetrically the other way; `NoCrossing`
otherwise — and at `line = 100`, `band = 25` the step `60 → 140` is an
entry while `60 → 110` and `110 → 60` are no crossings. -/
theorem C1_crossing_decision (p c line_y offset : Int) (hb : 0 ≤ offset) :
    (decide_crossing p c line_y offset = .EnteredDirection ↔
      (p < line_y - offset ∧ c > line_y + offset)) ∧
    (decide_crossing p c line_y offset = .ExitedDirection ↔
      (p > line_y + offset ∧ c < line_y - offset)) ∧
    (decide_crossing p c line_y offset = .NoCrossing ↔
      (¬(p < line_y - offset ∧ c > line_y + offset) ∧
        ¬(p > line_y + offset ∧ c < line_y - offset))) ∧
    decide_crossing 60 140 100 25 = .EnteredDirection ∧
    decide_crossing 60 110 100 25 = .NoCrossing ∧
    decide_crossing 110 60 100 25 = .NoCrossing := by
  refine ⟨?_, ?_, ?_, by decide, by decide, by decide⟩ <;>
    (unfold decide_crossing; split_ifs with h1 h2 <;> simp_all <;> omega)

/-- Witness for C1 at `p = 60`, `c = 140`, `line = 100`, `band = 25`. -/
theorem C1_crossing_decision_witness :
    (0 : Int) ≤ 25 ∧
    ((decide_crossing 60 140 100 25 = .EnteredDirection ↔
        ((60 : Int) < 100 - 25 ∧ (140 : Int) > 100 + 25)) ∧
      (decide_crossing 60 140 100 25 = .ExitedDirection ↔
        ((60 : Int) > 100 + 25 ∧ (140 : Int) < 100 - 25)) ∧
      (decide_crossing 60 140 100 25 = .NoCrossing ↔
        (¬((60 : Int) < 100 - 25 ∧ (140 : Int) > 100 + 25) ∧
          ¬((60 : Int) > 100 + 25 ∧ (140 : Int) < 100 - 25))) ∧
      decide_crossing 60 140 100 25 = .EnteredDirection ∧
      decide_crossing 60 110 100 25 = .NoCrossing ∧
      decide_crossing 110 60 100 25 = .NoCrossing) :=
  ⟨by decide, C1_crossing_decision 60 140 100 25 (by decide)⟩

/-- C4: on the frame where a track id is observed for the first time
(no stored previous position), the counters are unchanged and no
crossing event is emitted, for any boundary position and any band
`≥ 0` — line 66 of `main.py` defaults the previous centroid to the
current one, which can satisfy neither strict crossing condition. -/
theorem C4_first_observation_not_counted (line_y offset : Int) (s : CounterState)
    (o : Track) (hb : 0 ≤ offset)
    (hfirst : s.track_history o.track_id = none) :
    (processObs line_y offset s o).entered = s.entered ∧
      (processObs line_y offset s o).exited = s.exited ∧
      stepEvent line_y offset s o = none := by
  apply processObs_of_no_crossing
  rw [hfirst]
  unfold decide_crossing
  simp only [Option.getD_none]
  split_ifs with h1 h2
  · exact absurd h1 (by omega)
  · exact absurd h2 (by omega)
  · rfl

/-- Witness for C4: an unseen track at position 140 with the line at
100, band 25, entering an empty state. -/
theorem C4_first_observation_not_counted_witness :
    (0 : Int) ≤ 25 ∧
    (CounterState.mk 0 0 (fun _ => none) ∅).track_history 7 = none ∧
    ((processObs 100 25 (CounterState.mk 0 0 (fun _ => none) ∅)
        (Track.mk 7 130 150 true)).entered =
        (CounterState.mk 0 0 (fun _ => none) ∅).entered ∧
      (processObs 100 25 (CounterState.mk 0 0 (fun _ => none) ∅)
        (Track.mk 7 130 150 true)).exited =
        (CounterState.mk 0 0 (fun _ => none) ∅).exited ∧
      stepEvent 100 25 (CounterState.mk 0 0 (fun _ => none) ∅)
        (Track.mk 7 130 150 true) = none) :=
  ⟨by decide, rfl,
    C4_first_observation_not_counted 100 25 (CounterState.mk 0 0 (fun _ => none) ∅)
      (Track.mk 7 130 150 true) (by decide) rfl⟩

/-- C7: a confirmed observation of an already-counted id refreshes the
stored position to the new centroid while both counters stay unchanged. -/
theorem C7_counted_track_stays_fresh (line_y offset : Int) (s : CounterState)
    (o : Track) (hconf : o.confirmed = true) (hc : o.track_id ∈ s.counted_ids) :
    (processObs line_y offset s o).track_history o.track_id = some (obsCy o) ∧
      (processObs line_y offset s o).entered = s.entered ∧
      (processObs line_y offset s o).exited = s.exited := by
  unfold processObs
  simp [hconf, hc]

/-- Witness for C7: id 3 already counted, observed again at a new
position; the stored position becomes the new centroid. -/
theorem C7_counted_track_stays_fresh_witness :
    (Track.mk 3 40 60 true).confirmed = true ∧
    (Track.mk 3 40 60 true).track_id ∈
      (CounterState.mk 1 0 (fun _ => some 140) {3}).counted_ids ∧
    ((processObs 100 25 (CounterState.mk 1 0 (fun _ => some 140) {3})
        (Track.mk 3 40 60 true)).track_history (Track.mk 3 40 60 true).track_id =
        some (obsCy (Track.mk 3 40 60 true)) ∧
      (processObs 100 25 (CounterState.mk 1 0 (fun _ => some 140) {3})
        (Track.mk 3 40 60 true)).entered =
        (CounterState.mk 1 0 (fun _ => some 140) {3}).entered ∧
      (processObs 100 25 (CounterState.mk 1 0 (fun _ => some 140) {3})
        (Track.mk 3 40 60 true)).exited =
        (CounterState.mk 1 0 (fun _ => some 140) {3}).exited) :=
  ⟨rfl, by decide,
    C7_counted_track_stays_fresh 100 25 (CounterState.mk 1 0 (fun _ => some 140) {3})
      (Track.mk 3 40 60 true) rfl (by decide)⟩

/-! Basic step lemmas used by the counting invariants. -/

/-- Equation lemma: a frame step over a cons. -/
theorem processFrame_cons (line_y offset : Int) (o : Track) (rest : List Track)
    (s : CounterState) :
    processFrame line_y offset (o :: rest) s =
      processFrame line_y offset rest (processObs line_y offset s o) := rfl

/-- Equation lemma: a frame step over the empty list. -/
theorem processFrame_nil (line_y offset : Int) (s : CounterState) :
    processFrame line_y offset [] s = s := rfl

/-- The counted set only grows across one iteration. -/
theorem counted_ids_mono_step (line_y offset : Int) (s : CounterState) (o : Track) :
    s.counted_ids ⊆ (processObs line_y offset s o).counted_ids := by
  rw [processObs_char]
  dsimp only
  split_ifs
  · exact Finset.subset_insert _ _
  · exact Finset.Subset.refl _

/-- The counted set only grows across one frame. -/
theorem counted_ids_mono_frame (line_y offset : Int) :
    ∀ (obs : List Track) (s : CounterState),
      s.counted_ids ⊆ (processFrame line_y offset obs s).counted_ids := by
  intro obs
  induction obs with
  | nil => intro s; rw [processFrame_nil]
  | cons o rest ih =>
    intro s
    rw [processFrame_cons]
    exact (counted_ids_mono_step line_y offset s o).trans
      (ih (processObs line_y offset s o))

/-- `entered` never decreases across one iteration. -/
theorem entered_mono_step (line_y offset : Int) (s : CounterState) (o : Track) :
    s.entered ≤ (processObs line_y offset s o).entered := by
  rw [processObs_char]
  exact Nat.le_add_right _ _

/-- `exited` never decreases across one iteration. -/
theorem exited_mono_step (line_y offset : Int) (s : CounterState) (o : Track) :
    s.exited ≤ (processObs line_y offset s o).exited := by
  rw [processObs_char]
  exact Nat.le_add_right _ _

/-- `entered` never decreases across one frame. -/
theorem entered_mono_frame (line_y offset : Int) :
    ∀ (obs : List Track) (s : CounterState),
      s.entered ≤ (processFrame line_y offset obs s).entered := by
  intro obs
  induction obs with
  | nil => intro s; exact Nat.le_refl _
  | cons o rest ih =>
    intro s
    exact (entered_mono_step line_y offset s o).trans
      (ih (processObs line_y offset s o))

/-- `exited` never decreases across one frame. -/
theorem exited_mono_frame (line_y offset : Int) :
    ∀ (obs : List Track) (s : CounterState),
      s.exited ≤ (processFrame line_y offset obs s).exited := by
  intro obs
  induction obs with
  | nil => intro s; exact Nat.le_refl _
  | cons o rest ih =>
    intro s
    exact (exited_mono_step line_y offset s o).trans
      (ih (processObs line_y offset s o))

/-- One iteration increases `entered + exited` by exactly the number
of events it emits (zero or one). -/
theorem step_counters_events (line_y offset : Int) (s : CounterState) (o : Track) :
    (processObs line_y offset s o).entered + (processObs line_y offset s o).exited =
      s.entered + s.exited + (stepEvent line_y offset s o).toList.length := by
  rw [processObs_char, stepEvent_char]
  dsimp only
  by_cases h : (obsDelta line_y offset (s.track_history o.track_id)
      (decide (o.track_id ∈ s.counted_ids)) o).2.2 = true
  · have hd := obsDelta_adds line_y offset (s.track_history o.track_id)
      (decide (o.track_id ∈ s.counted_ids)) o h
    rw [if_pos h]
    simp only [Option.toList_some, List.length_singleton]
    omega
  · have hd := obsDelta_not_adds line_y offset (s.track_history o.track_id)
      (decide (o.track_id ∈ s.counted_ids)) o (by simpa using h)
    rw [if_neg h]
    simp only [Option.toList_none, List.length_nil]
    omega

/-- An emitted event carries the observation's id, and afterwards the
id is in the counted set. -/
theorem stepEvent_some_mem (line_y offset : Int) (s : CounterState) (o : Track)
    (e : Nat × CrossingDecision) (h : stepEvent line_y offset s o = some e) :
    e.1 = o.track_id ∧ o.track_id ∈ (processObs line_y offset s o).counted_ids := by
  rw [stepEvent_char] at h
  rw [processObs_char]
  dsimp only
  by_cases hd : (obsDelta line_y offset (s.track_history o.track_id)
      (decide (o.track_id ∈ s.counted_ids)) o).2.2 = true
  · rw [if_pos hd] at h
    rw [if_pos hd]
    refine ⟨?_, Finset.mem_insert_self _ _⟩
    cases h
    rfl
  · rw [if_neg hd] at h
    exact absurd h (by simp)

/-- An already-counted id emits no event and leaves the whole counting
state (counters and counted set) unchanged; only the stored position
may move. -/
theorem processObs_of_counted (line_y offset : Int) (s : CounterState) (o : Track)
    (h : o.track_id ∈ s.counted_ids) :
    (processObs line_y offset s o).entered = s.entered ∧
      (processObs line_y offset s o).exited = s.exited ∧
      stepEvent line_y offset s o = none ∧
      (processObs line_y offset s o).counted_ids = s.counted_ids := by
  rw [processObs_char, stepEvent_char]
  simp [h, obsDelta_already]

/-- An already-counted id emits no event. -/
theorem stepEvent_of_counted (line_y offset : Int) (s : CounterState) (o : Track)
    (h : o.track_id ∈ s.counted_ids) : stepEvent line_y offset s o = none := by
  rw [stepEvent_char]
  simp [h, obsDelta_already]

/-- Per-frame event accounting for a fixed id: at most one event is
emitted for it, none if it is already counted, and if at least one is
emitted the id ends up counted. -/
theorem frameEvents_countP (line_y offset : Int) (i : Nat) :
    ∀ (obs : List Track) (s : CounterState),
      (frameEvents line_y offset s obs).countP (fun e => e.1 == i) ≤ 1 ∧
      (i ∈ s.counted_ids →
        (frameEvents line_y offset s obs).countP (fun e => e.1 == i) = 0) ∧
      (1 ≤ (frameEvents line_y offset s obs).countP (fun e => e.1 == i) →
        i ∈ (processFrame line_y offset obs s).counted_ids) := by
  intro obs
  induction obs with
  | nil =>
    intro s
    simp [frameEvents, processFrame_nil]
  | cons o rest ih =>
    intro s
    rw [frameEvents, List.countP_append, processFrame_cons]
    obtain ⟨ih1, ih2, ih3⟩ := ih (processObs line_y offset s o)
    cases he : stepEvent line_y offset s o with
    | none =>
      simp only [he, Option.toList_none, List.countP_nil, Nat.zero_add]
      exact ⟨ih1, fun _hi => ih2 (counted_ids_mono_step line_y offset s o
        (by exact _hi)), ih3⟩
    | some e =>
      obtain ⟨he1, he2⟩ := stepEvent_some_mem line_y offset s o e he
      by_cases hei : e.1 = i
      · have hio : o.track_id = i := by rw [← he1, hei]
        have hicount : i ∈ (processObs line_y offset s o).counted_ids := hio ▸ he2
        have h0 := ih2 hicount
        refine ⟨?_, ?_, ?_⟩
        · simp [h0, hei]
        · intro hi
          exfalso
          have : stepEvent line_y offset s o = none :=
            stepEvent_of_counted line_y offset s o (by rw [hio]; exact hi)
          rw [this] at he
          exact Option.noConfusion he
        · intro _h
          exact counted_ids_mono_frame line_y offset rest _ hicount
      · have hhead : (Option.toList (some e)).countP (fun e => e.1 == i) = 0 := by
          simp [hei]
        refine ⟨?_, ?_, ?_⟩
        · rw [hhead, Nat.zero_add]; exact ih1
        · intro hi
          rw [hhead, Nat.zero_add]
          exact ih2 (counted_ids_mono_step line_y offset s o hi)
        · intro hone
          rw [hhead, Nat.zero_add] at hone
          exact ih3 hone

/-- Whole-run event accounting for a fixed id: at most one event in
total, and none at all from a state where the id is already counted. -/
theorem runEvents_countP (line_y offset : Int) (i : Nat) :
    ∀ (frames : List (List Track)) (s : CounterState),
      (runEvents line_y offset s frames).countP (fun e => e.1 == i) ≤ 1 ∧
      (i ∈ s.counted_ids →
        (runEvents line_y offset s frames).countP (fun e => e.1 == i) = 0) := by
  intro frames
  induction frames with
  | nil =>
    intro s
    simp [runEvents]
  | cons f fs ih =>
    intro s
    rw [runEvents, List.countP_append]
    obtain ⟨hf1, hf2, hf3⟩ := frameEvents_countP line_y offset i f s
    obtain ⟨ih1, ih2⟩ := ih (processFrame line_y offset f s)
    constructor
    · by_cases hz : (frameEvents line_y offset s f).countP (fun e => e.1 == i) = 0
      · rw [hz, Nat.zero_add]; exact ih1
      · have hone : 1 ≤ (frameEvents line_y offset s f).countP (fun e => e.1 == i) :=
          Nat.one_le_iff_ne_zero.mpr hz
        have htail := ih2 (hf3 hone)
        omega
    · intro hi
      rw [hf2 hi, Nat.zero_add]
      exact ih2 (counted_ids_mono_frame line_y offset f s hi)

/-- One frame increases `entered + exited` by exactly the number of
events it emits. -/
theorem frame_counters_events (line_y offset : Int) :
    ∀ (obs : List Track) (s : CounterState),
      (processFrame line_y offset obs s).entered +
          (processFrame line_y offset obs s).exited =
        s.entered + s.exited + (frameEvents line_y offset s obs).length := by
  intro obs
  induction obs with
  | nil =>
    intro s
    simp [processFrame_nil, frameEvents]
  | cons o rest ih =>
    intro s
    rw [processFrame_cons, frameEvents, List.length_append,
      ih (processObs line_y offset s o), step_counters_events]
    omega

/-- A whole run increases `entered + exited` by exactly the number of
events it emits. -/
theorem run_counters_events (line_y offset : Int) :
    ∀ (frames : List (List Track)) (s : CounterState),
      (processFrames line_y offset frames s).entered +
          (processFrames line_y offset frames s).exited =
        s.entered + s.exited + (runEvents line_y offset s frames).length := by
  intro frames
  induction frames with
  | nil =>
    intro s
    simp [processFrames, runEvents]
  | cons f fs ih =>
    intro s
    have hcons : processFrames line_y offset (f :: fs) s =
        processFrames line_y offset fs (processFrame line_y offset f s) := rfl
    rw [hcons, runEvents, List.length_append,
      ih (processFrame line_y offset f s), frame_counters_events]
    omega

/-- C2: over any run, at most one crossing event is ever emitted on
behalf of a given track id; from any state where the id is already
counted, a further observation of it changes neither counter and emits
nothing; and every increment of `entered + exited` corresponds to
exactly one emitted event. -/
theorem C2_at_most_once_per_track (line_y offset : Int)
    (frames : List (List Track)) (s : CounterState) (i : Nat) :
    (runEvents line_y offset s frames).countP (fun e => e.1 == i) ≤ 1 ∧
    (∀ (s' : CounterState) (o : Track), i ∈ s'.counted_ids → o.track_id = i →
      (processObs line_y offset s' o).entered = s'.entered ∧
        (processObs line_y offset s' o).exited = s'.exited ∧
        stepEvent line_y offset s' o = none) ∧
    (processFrames line_y offset frames s).entered +
        (processFrames line_y offset frames s).exited =
      s.entered + s.exited + (runEvents line_y offset s frames).length := by
  refine ⟨(runEvents_countP line_y offset i frames s).1, ?_,
    run_counters_events line_y offset frames s⟩
  intro s' o hmem ho
  have h : o.track_id ∈ s'.counted_ids := by rw [ho]; exact hmem
  obtain ⟨h1, h2, h3, _h4⟩ := processObs_of_counted line_y offset s' o h
  exact ⟨h1, h2, h3⟩

/-- Witness for C2: a run of two frames in which track 5 crosses once
and then oscillates back, plus a counted-state observation of id 5. -/
theorem C2_at_most_once_per_track_witness :
    (runEvents 100 25 (CounterState.mk 0 0 (fun _ => none) ∅)
        [[Track.mk 5 50 70 true], [Track.mk 5 130 150 true], [Track.mk 5 50 70 true]]).countP
        (fun e => e.1 == 5) ≤ 1 ∧
    ((5 : Nat) ∈ (CounterState.mk 1 0 (fun _ => some 140) {5}).counted_ids ∧
      (Track.mk 5 50 70 true).track_id = 5 ∧
      (processObs 100 25 (CounterState.mk 1 0 (fun _ => some 140) {5})
          (Track.mk 5 50 70 true)).entered =
        (CounterState.mk 1 0 (fun _ => some 140) {5}).entered ∧
      (processObs 100 25 (CounterState.mk 1 0 (fun _ => some 140) {5})
          (Track.mk 5 50 70 true)).exited =
        (CounterState.mk 1 0 (fun _ => some 140) {5}).exited ∧
      stepEvent 100 25 (CounterState.mk 1 0 (fun _ => some 140) {5})
        (Track.mk 5 50 70 true) = none) ∧
    (processFrames 100 25
          [[Track.mk 5 50 70 true], [Track.mk 5 130 150 true], [Track.mk 5 50 70 true]]
          (CounterState.mk 0 0 (fun _ => none) ∅)).entered +
        (processFrames 100 25
          [[Track.mk 5 50 70 true], [Track.mk 5 130 150 true], [Track.mk 5 50 70 true]]
          (CounterState.mk 0 0 (fun _ => none) ∅)).exited =
      (CounterState.mk 0 0 (fun _ => none) ∅).entered +
        (CounterState.mk 0 0 (fun _ => none) ∅).exited +
        (runEvents 100 25 (CounterState.mk 0 0 (fun _ => none) ∅)
          [[Track.mk 5 50 70 true], [Track.mk 5 130 150 true], [Track.mk 5 50 70 true]]).length := by
  obtain ⟨w1, w2, w3⟩ := C2_at_most_once_per_track 100 25
    [[Track.mk 5 50 70 true], [Track.mk 5 130 150 true], [Track.mk 5 50 70 true]]
    (CounterState.mk 0 0 (fun _ => none) ∅) 5
  obtain ⟨u1, u2, u3⟩ := w2 (CounterState.mk 1 0 (fun _ => some 140) {5})
    (Track.mk 5 50 70 true) (by decide) rfl
  exact ⟨w1, ⟨by decide, rfl, u1, u2, u3⟩, w3⟩

/-! Per-field step lemmas. -/

/-- An iteration for another id leaves that id's stored position alone. -/
theorem track_history_step_other (line_y offset : Int) (s : CounterState)
    (o : Track) (i : Nat) (hi : i ≠ o.track_id) :
    (processObs line_y offset s o).track_history i = s.track_history i := by
  rw [processObs_char]
  dsimp only
  split_ifs with hc
  · exact Function.update_noteq hi _ _
  · rfl

/-- An iteration for another id does not change that id's counted
status. -/
theorem counted_step_other (line_y offset : Int) (s : CounterState) (o : Track)
    (i : Nat) (hi : i ≠ o.track_id) :
    (i ∈ (processObs line_y offset s o).counted_ids) ↔ i ∈ s.counted_ids := by
  rw [processObs_char]
  dsimp only
  split_ifs with hd
  · simp [Finset.mem_insert, hi]
  · exact Iff.rfl

/-- An iteration never deletes a stored position. -/
theorem track_history_step_isSome (line_y offset : Int) (s : CounterState)
    (o : Track) (j : Nat) (hj : (s.track_history j).isSome = true) :
    ((processObs line_y offset s o).track_history j).isSome = true := by
  rw [processObs_char]
  dsimp only
  split_ifs with hc
  · by_cases hji : j = o.track_id
    · subst hji; rw [Function.update_same]; rfl
    · rw [Function.update_noteq hji]; exact hj
  · exact hj

/-- The inside value of every per-frame display equals the difference
of its two counters. -/
theorem runDisplays_inside (line_y offset : Int) :
    ∀ (frames : List (List Track)) (s : CounterState),
      ∀ d ∈ runDisplays line_y offset s frames,
        d.2.2 = (d.1 : Int) - (d.2.1 : Int) := by
  intro frames
  induction frames with
  | nil => intro s d hd; simp [runDisplays] at hd
  | cons f fs ih =>
    intro s d hd
    rw [runDisplays] at hd
    rcases List.mem_cons.mp hd with rfl | hd
    · rfl
    · exact ih (processFrame line_y offset f s) d hd

/-- C3: after every processed frame of any run, the displayed
`inside` value equals `entered - exited` (also when negative), and the
dashboard derives `currently inside` the same way from the payload; no
independent inside counter exists in the state. -/
theorem C3_conservation (line_y offset : Int) (frames : List (List Track))
    (s : CounterState) (d : Nat × Nat × Int)
    (hd : d ∈ runDisplays line_y offset s frames) :
    d.2.2 = (d.1 : Int) - (d.2.1 : Int) ∧
    (∀ de dx : Option Int,
      (dashboard_metrics de dx).2.2 =
        (dashboard_metrics de dx).1 - (dashboard_metrics de dx).2.1) ∧
    frameDisplay s = (s.entered, s.exited, (s.entered : Int) - (s.exited : Int)) := by
  exact ⟨runDisplays_inside line_y offset frames s d hd, fun de dx => rfl, rfl⟩

/-- Witness for C3: a run in which track 2 is first seen above the
line and then crosses downward, producing the negative display
`(entered, exited, inside) = (0, 1, -1)`. -/
theorem C3_conservation_witness :
    ((0, 1, -1) : Nat × Nat × Int) ∈
      runDisplays 100 25 (CounterState.mk 0 0 (fun _ => none) ∅)
        [[Track.mk 2 130 150 true], [Track.mk 2 50 70 true]] ∧
    ((((0, 1, -1) : Nat × Nat × Int).2.2 =
        (((0, 1, -1) : Nat × Nat × Int).1 : Int) -
          (((0, 1, -1) : Nat × Nat × Int).2.1 : Int)) ∧
      (∀ de dx : Option Int,
        (dashboard_metrics de dx).2.2 =
          (dashboard_metrics de dx).1 - (dashboard_metrics de dx).2.1) ∧
      frameDisplay (CounterState.mk 0 0 (fun _ => none) ∅) =
        ((CounterState.mk 0 0 (fun _ => none) ∅).entered,
          (CounterState.mk 0 0 (fun _ => none) ∅).exited,
          ((CounterState.mk 0 0 (fun _ => none) ∅).entered : Int) -
            ((CounterState.mk 0 0 (fun _ => none) ∅).exited : Int))) :=
  ⟨by decide,
    C3_conservation 100 25 [[Track.mk 2 130 150 true], [Track.mk 2 50 70 true]]
      (CounterState.mk 0 0 (fun _ => none) ∅) (0, 1, -1) (by decide)⟩

/-- C5 counterexample: `main.py` performs no staleness sweep at all —
`track_history` (line 31) is only ever written at line 67 and never has
entries removed.  Starting from a state holding a stored position for
track 5, processing 31 consecutive frames in which track 5 is never
observed (more than the tracker's `max_age=30`, the only staleness
window appearing in the code) leaves the entry present and unchanged,
refuting the claim that no entry older than the window survives a
frame tick. -/
theorem C5_eviction_counterexample :
    (processFrames 100 25 (List.replicate 31 [])
        (CounterState.mk 0 0 (fun j => if j = 5 then some 42 else none) ∅)).track_history
        5 = some 42 := by
  decide

/-- C5 amended: no eviction exists; a frame leaves the stored position
of every id it does not (confirmedly) observe untouched, and never
removes any entry, so `track_history` retains every id ever observed
for the process lifetime. -/
theorem C5_no_eviction (line_y offset : Int) (obs : List Track) (s : CounterState)
    (i : Nat) (h : ∀ o ∈ obs, o.confirmed = true → o.track_id ≠ i) :
    (processFrame line_y offset obs s).track_history i = s.track_history i ∧
    ∀ j : Nat, (s.track_history j).isSome = true →
      ((processFrame line_y offset obs s).track_history j).isSome = true := by
  induction obs generalizing s with
  | nil => exact ⟨rfl, fun j hj => hj⟩
  | cons o rest ih =>
    rw [processFrame_cons]
    have hstep : (processObs line_y offset s o).track_history i = s.track_history i := by
      by_cases hc : o.confirmed = true
      · exact track_history_step_other line_y offset s o i
          (fun he => h o (List.mem_cons_self o rest) hc he.symm)
      · rw [processObs_char]
        dsimp only
        rw [if_neg hc]
    obtain ⟨ih1, ih2⟩ := ih (processObs line_y offset s o)
      (fun o' ho' => h o' (List.mem_cons_of_mem o ho'))
    refine ⟨by rw [ih1, hstep], fun j hj => ?_⟩
    exact ih2 j (track_history_step_isSome line_y offset s o j hj)

/-- Witness for C5 amended: a frame containing only track 1 leaves
track 5's stored position untouched. -/
theorem C5_no_eviction_witness :
    (∀ o ∈ [Track.mk 1 130 150 true], o.confirmed = true → o.track_id ≠ 5) ∧
    ((processFrame 100 25 [Track.mk 1 130 150 true]
          (CounterState.mk 0 0 (fun j => if j = 5 then some 42 else none) ∅)).track_history
          5 =
        (CounterState.mk 0 0 (fun j => if j = 5 then some 42 else none) ∅).track_history
          5 ∧
      ∀ j : Nat,
        ((CounterState.mk 0 0 (fun j => if j = 5 then some 42 else none)
            ∅).track_history j).isSome = true →
        ((processFrame 100 25 [Track.mk 1 130 150 true]
            (CounterState.mk 0 0 (fun j => if j = 5 then some 42 else none)
              ∅)).track_history j).isSome = true) :=
  ⟨by decide,
    C5_no_eviction 100 25 [Track.mk 1 130 150 true]
      (CounterState.mk 0 0 (fun j => if j = 5 then some 42 else none) ∅) 5
      (by decide)⟩

/-- Modelled from the spec: the Snapshot Publisher (spec §4.4) behind
the `/api/live` endpoint that `dashboard.py` polls is not among the
repository's source files; this is its payload
`{entered, exited, currently_inside, anomaly}` (the ISO timestamp
carries no logical content and is omitted). -/
structure Snapshot where
  entered : Nat
  exited : Nat
  currently_inside : Int
  anomaly : Bool
deriving DecidableEq

/-- Modelled from the spec: `snapshot()` publishes the counters, the
derived `currently_inside = entered - exited`, and `anomaly`, true when
`currently_inside < 0` or when it exceeds the configured zone capacity
(spec §4.4); it reads the state and never mutates it. -/
def snapshot (zone_capacity : Int) (s : CounterState) : Snapshot :=
  { entered := s.entered
    exited := s.exited
    currently_inside := (s.entered : Int) - (s.exited : Int)
    anomaly := decide ((s.entered : Int) - (s.exited : Int) < 0) ||
      decide (zone_capacity < (s.entered : Int) - (s.exited : Int)) }

/-- C6: the snapshot's `anomaly` flag is true whenever
`entered - exited` is negative; with no entries and one counted exit
the snapshot is `{entered := 0, exited := 1, currently_inside := -1,
anomaly := true}`; and the engine never auto-corrects: a further
observation can only keep or increase both counters. -/
theorem C6_snapshot_anomaly (zone_capacity line_y offset : Int) (s : CounterState)
    (o : Track) (hneg : (s.entered : Int) - (s.exited : Int) < 0) :
    (snapshot zone_capacity s).anomaly = true ∧
    snapshot zone_capacity (CounterState.mk 0 1 (fun _ => none) ∅) =
      Snapshot.mk 0 1 (-1) true ∧
    s.entered ≤ (processObs line_y offset s o).entered ∧
    s.exited ≤ (processObs line_y offset s o).exited := by
  refine ⟨?_, ?_, entered_mono_step line_y offset s o, exited_mono_step line_y offset s o⟩
  · simp [snapshot, hneg]
  · simp [snapshot, Snapshot.mk.injEq]

/-- Witness for C6 at the state with zero entries and one exit. -/
theorem C6_snapshot_anomaly_witness :
    (((CounterState.mk 0 1 (fun _ => none) ∅).entered : Int) -
        ((CounterState.mk 0 1 (fun _ => none) ∅).exited : Int) < 0) ∧
    ((snapshot 50 (CounterState.mk 0 1 (fun _ => none) ∅)).anomaly = true ∧
      snapshot 50 (CounterState.mk 0 1 (fun _ => none) ∅) =
        Snapshot.mk 0 1 (-1) true ∧
      (CounterState.mk 0 1 (fun _ => none) ∅).entered ≤
        (processObs 100 25 (CounterState.mk 0 1 (fun _ => none) ∅)
          (Track.mk 9 50 70 true)).entered ∧
      (CounterState.mk 0 1 (fun _ => none) ∅).exited ≤
        (processObs 100 25 (CounterState.mk 0 1 (fun _ => none) ∅)
          (Track.mk 9 50 70 true)).exited) :=
  ⟨by decide,
    C6_snapshot_anomaly 50 100 25 (CounterState.mk 0 1 (fun _ => none) ∅)
      (Track.mk 9 50 70 true) (by decide)⟩

/-! Commutation of iterations for distinct ids. -/

/-- Projection of the characterization: the new `entered`. -/
theorem entered_step_eq (line_y offset : Int) (s : CounterState) (o : Track) :
    (processObs line_y offset s o).entered =
      s.entered + (obsDelta line_y offset (s.track_history o.track_id)
        (decide (o.track_id ∈ s.counted_ids)) o).1 := by
  rw [processObs_char]

/-- Projection of the characterization: the new `exited`. -/
theorem exited_step_eq (line_y offset : Int) (s : CounterState) (o : Track) :
    (processObs line_y offset s o).exited =
      s.exited + (obsDelta line_y offset (s.track_history o.track_id)
        (decide (o.track_id ∈ s.counted_ids)) o).2.1 := by
  rw [processObs_char]

/-- Projection of the characterization: the new position map. -/
theorem track_history_step_eq (line_y offset : Int) (s : CounterState) (o : Track) :
    (processObs line_y offset s o).track_history =
      if o.confirmed = true then
        Function.update s.track_history o.track_id (some (obsCy o))
      else s.track_history := by
  rw [processObs_char]

/-- Projection of the characterization: the new counted set. -/
theorem counted_step_eq (line_y offset : Int) (s : CounterState) (o : Track) :
    (processObs line_y offset s o).counted_ids =
      if (obsDelta line_y offset (s.track_history o.track_id)
          (decide (o.track_id ∈ s.counted_ids)) o).2.2 = true then
        insert o.track_id s.counted_ids
      else s.counted_ids := by
  rw [processObs_char]

/-- The delta of an observation is unchanged by first processing an
observation with a different id. -/
theorem obsDelta_step_other (line_y offset : Int) (s : CounterState)
    (o1 o2 : Track) (h : o2.track_id ≠ o1.track_id) :
    obsDelta line_y offset
        ((processObs line_y offset s o1).track_history o2.track_id)
        (decide (o2.track_id ∈ (processObs line_y offset s o1).counted_ids)) o2 =
      obsDelta line_y offset (s.track_history o2.track_id)
        (decide (o2.track_id ∈ s.counted_ids)) o2 := by
  rw [track_history_step_other line_y offset s o1 o2.track_id h]
  congr 1
  exact decide_eq_decide.mpr (counted_step_other line_y offset s o1 o2.track_id h)

/-- Iterations for observations with distinct ids commute. -/
theorem processObs_comm (line_y offset : Int) (s : CounterState) (o1 o2 : Track)
    (h : o1.track_id ≠ o2.track_id) :
    processObs line_y offset (processObs line_y offset s o1) o2 =
      processObs line_y offset (processObs line_y offset s o2) o1 := by
  have h21 : o2.track_id ≠ o1.track_id := Ne.symm h
  ext1
  · rw [entered_step_eq, entered_step_eq, entered_step_eq, entered_step_eq,
      obsDelta_step_other line_y offset s o1 o2 h21,
      obsDelta_step_other line_y offset s o2 o1 h]
    omega
  · rw [exited_step_eq, exited_step_eq, exited_step_eq, exited_step_eq,
      obsDelta_step_other line_y offset s o1 o2 h21,
      obsDelta_step_other line_y offset s o2 o1 h]
    omega
  · rw [track_history_step_eq line_y offset (processObs line_y offset s o1) o2,
      track_history_step_eq line_y offset (processObs line_y offset s o2) o1,
      track_history_step_eq line_y offset s o1,
      track_history_step_eq line_y offset s o2]
    split_ifs <;> first
      | rfl
      | exact Function.update_comm h _ _ _
  · rw [counted_step_eq line_y offset (processObs line_y offset s o1) o2,
      counted_step_eq line_y offset (processObs line_y offset s o2) o1,
      obsDelta_step_other line_y offset s o1 o2 h21,
      obsDelta_step_other line_y offset s o2 o1 h,
      counted_step_eq line_y offset s o1,
      counted_step_eq line_y offset s o2]
    split_ifs <;> first
      | rfl
      | exact Finset.Insert.comm _ _ _

/-- C8: for a frame whose observations carry pairwise distinct track
ids, processing them in any permutation yields the same state —
counters, trajectory map and counted set alike. -/
theorem C8_order_independence (line_y offset : Int) (obs obs2 : List Track)
    (s : CounterState) (hnd : (obs.map (fun o => o.track_id)).Nodup)
    (hp : obs.Perm obs2) :
    processFrame line_y offset obs s = processFrame line_y offset obs2 s := by
  unfold processFrame
  refine hp.foldl_eq' ?_ s
  intro x hx y hy z
  by_cases hxy : x = y
  · subst hxy; rfl
  · have hne : x.track_id ≠ y.track_id := by
      intro he
      exact hxy (List.inj_on_of_nodup_map hnd hx hy he)
    exact processObs_comm line_y offset z x y hne

/-- Witness for C8: swapping a two-track frame gives the same state. -/
theorem C8_order_independence_witness :
    (([Track.mk 1 50 70 true, Track.mk 2 130 150 true].map
        (fun o => o.track_id)).Nodup ∧
      ([Track.mk 1 50 70 true, Track.mk 2 130 150 true]).Perm
        [Track.mk 2 130 150 true, Track.mk 1 50 70 true]) ∧
    processFrame 100 25 [Track.mk 1 50 70 true, Track.mk 2 130 150 true]
        (CounterState.mk 0 0 (fun _ => none) ∅) =
      processFrame 100 25 [Track.mk 2 130 150 true, Track.mk 1 50 70 true]
        (CounterState.mk 0 0 (fun _ => none) ∅) :=
  ⟨⟨by decide, List.Perm.swap (Track.mk 2 130 150 true) (Track.mk 1 50 70 true) []⟩,
    C8_order_independence 100 25
      [Track.mk 1 50 70 true, Track.mk 2 130 150 true]
      [Track.mk 2 130 150 true, Track.mk 1 50 70 true]
      (CounterState.mk 0 0 (fun _ => none) ∅) (by decide)
      (List.Perm.swap (Track.mk 2 130 150 true) (Track.mk 1 50 70 true) [])⟩

/-! The implicit counters-versus-counted-set invariant. -/

/-- Distinct confirmed track ids occurring in one frame's observations. -/
def confirmedIds : List Track → Finset Nat
  | [] => ∅
  | o :: rest =>
      if o.confirmed = true then insert o.track_id (confirmedIds rest)
      else confirmedIds rest

/-- Distinct confirmed track ids occurring anywhere in a run. -/
def runConfirmedIds : List (List Track) → Finset Nat
  | [] => ∅
  | f :: fs => confirmedIds f ∪ runConfirmedIds fs

/-- An id added by the delta comes from a confirmed observation. -/
theorem obsDelta_adds_confirmed (line_y offset : Int) (hist : Option Int)
    (already : Bool) (o : Track)
    (h : (obsDelta line_y offset hist already o).2.2 = true) :
    o.confirmed = true := by
  unfold obsDelta at h
  cases hc : o.confirmed with
  | false => simp [hc] at h
  | true => rfl

/-- One iteration preserves `entered + exited = card counted_ids`. -/
theorem invariant_step (line_y offset : Int) (s : CounterState) (o : Track)
    (h : s.entered + s.exited = s.counted_ids.card) :
    (processObs line_y offset s o).entered + (processObs line_y offset s o).exited =
      (processObs line_y offset s o).counted_ids.card := by
  rw [entered_step_eq, exited_step_eq, counted_step_eq]
  by_cases hd : (obsDelta line_y offset (s.track_history o.track_id)
      (decide (o.track_id ∈ s.counted_ids)) o).2.2 = true
  · obtain ⟨ha, hsum⟩ := obsDelta_adds line_y offset (s.track_history o.track_id)
      (decide (o.track_id ∈ s.counted_ids)) o hd
    have hnot : o.track_id ∉ s.counted_ids := of_decide_eq_false ha
    rw [if_pos hd, Finset.card_insert_of_not_mem hnot]
    omega
  · obtain ⟨h1, h2⟩ := obsDelta_not_adds line_y offset (s.track_history o.track_id)
      (decide (o.track_id ∈ s.counted_ids)) o (by simpa using hd)
    rw [if_neg hd, h1, h2]
    omega

/-- One frame preserves `entered + exited = card counted_ids`. -/
theorem invariant_frame (line_y offset : Int) :
    ∀ (obs : List Track) (s : CounterState),
      s.entered + s.exited = s.counted_ids.card →
      (processFrame line_y offset obs s).entered +
          (processFrame line_y offset obs s).exited =
        (processFrame line_y offset obs s).counted_ids.card := by
  intro obs
  induction obs with
  | nil => intro s h; exact h
  | cons o rest ih =>
    intro s h
    rw [processFrame_cons]
    exact ih (processObs line_y offset s o) (invariant_step line_y offset s o h)

/-- A whole run preserves `entered + exited = card counted_ids`. -/
theorem invariant_run (line_y offset : Int) :
    ∀ (frames : List (List Track)) (s : CounterState),
      s.entered + s.exited = s.counted_ids.card →
      (processFrames line_y offset frames s).entered +
          (processFrames line_y offset frames s).exited =
        (processFrames line_y offset frames s).counted_ids.card := by
  intro frames
  induction frames with
  | nil => intro s h; exact h
  | cons f fs ih =>
    intro s h
    exact ih (processFrame line_y offset f s) (invariant_frame line_y offset f s h)

/-- New counted ids of one iteration come from its observation when
confirmed. -/
theorem counted_step_subset (line_y offset : Int) (s : CounterState) (o : Track) :
    (processObs line_y offset s o).counted_ids ⊆
      s.counted_ids ∪ confirmedIds [o] := by
  rw [counted_step_eq]
  split_ifs with hd
  · intro x hx
    rcases Finset.mem_insert.mp hx with rfl | hx
    · refine Finset.mem_union_right _ ?_
      have hc := obsDelta_adds_confirmed line_y offset (s.track_history o.track_id)
        (decide (o.track_id ∈ s.counted_ids)) o hd
      simp [confirmedIds, hc]
    · exact Finset.mem_union_left _ hx
  · exact fun x hx => Finset.mem_union_left _ hx

/-- Splitting a frame's confirmed ids at its head observation. -/
theorem confirmedIds_cons (o : Track) (rest : List Track) :
    confirmedIds (o :: rest) = confirmedIds [o] ∪ confirmedIds rest := by
  show (if o.confirmed = true then insert o.track_id (confirmedIds rest)
      else confirmedIds rest) = confirmedIds [o] ∪ confirmedIds rest
  split_ifs with hc
  · simp [confirmedIds, hc, Finset.insert_eq]
  · simp [confirmedIds, hc]

/-- New counted ids of one frame come from its confirmed observations. -/
theorem counted_frame_subset (line_y offset : Int) :
    ∀ (obs : List Track) (s : CounterState),
      (processFrame line_y offset obs s).counted_ids ⊆
        s.counted_ids ∪ confirmedIds obs := by
  intro obs
  induction obs with
  | nil =>
    intro s
    rw [processFrame_nil]
    exact fun x hx => Finset.mem_union_left _ hx
  | cons o rest ih =>
    intro s
    rw [processFrame_cons, confirmedIds_cons]
    intro x hx
    rcases Finset.mem_union.mp (ih (processObs line_y offset s o) hx) with hx | hx
    · rcases Finset.mem_union.mp (counted_step_subset line_y offset s o hx) with hx | hx
      · exact Finset.mem_union_left _ hx
      · exact Finset.mem_union_right _ (Finset.mem_union_left _ hx)
    · exact Finset.mem_union_right _ (Finset.mem_union_right _ hx)

/-- New counted ids of a run come from its confirmed observations. -/
theorem counted_run_subset (line_y offset : Int) :
    ∀ (frames : List (List Track)) (s : CounterState),
      (processFrames line_y offset frames s).counted_ids ⊆
        s.counted_ids ∪ runConfirmedIds frames := by
  intro frames
  induction frames with
  | nil =>
    intro s
    exact fun x hx => Finset.mem_union_left _ hx
  | cons f fs ih =>
    intro s
    intro x hx
    rcases Finset.mem_union.mp (ih (processFrame line_y offset f s) hx) with hx | hx
    · rcases Finset.mem_union.mp (counted_frame_subset line_y offset f s hx) with hx | hx
      · exact Finset.mem_union_left _ hx
      · exact Finset.mem_union_right _ (by
          unfold runConfirmedIds
          exact Finset.mem_union_left _ hx)
    · exact Finset.mem_union_right _ (by
        unfold runConfirmedIds
        exact Finset.mem_union_right _ hx)

/-- `entered` never decreases across a run. -/
theorem entered_mono_run (line_y offset : Int) :
    ∀ (frames : List (List Track)) (s : CounterState),
      s.entered ≤ (processFrames line_y offset frames s).entered := by
  intro frames
  induction frames with
  | nil => intro s; exact Nat.le_refl _
  | cons f fs ih =>
    intro s
    exact (entered_mono_frame line_y offset f s).trans
      (ih (processFrame line_y offset f s))

/-- `exited` never decreases across a run. -/
theorem exited_mono_run (line_y offset : Int) :
    ∀ (frames : List (List Track)) (s : CounterState),
      s.exited ≤ (processFrames line_y offset frames s).exited := by
  intro frames
  induction frames with
  | nil => intro s; exact Nat.le_refl _
  | cons f fs ih =>
    intro s
    exact (exited_mono_frame line_y offset f s).trans
      (ih (processFrame line_y offset f s))

/-- C9: at every step `entered + exited` equals the number of distinct
counted ids; both counters are monotone over a run; and their sum is
bounded by the initial counted count plus the number of distinct
confirmed ids observed during the run. -/
theorem C9_count_identity_invariant (line_y offset : Int)
    (frames : List (List Track)) (s : CounterState)
    (h : s.entered + s.exited = s.counted_ids.card) :
    (∀ (s' : CounterState) (o : Track),
        s'.entered + s'.exited = s'.counted_ids.card →
        (processObs line_y offset s' o).entered +
            (processObs line_y offset s' o).exited =
          (processObs line_y offset s' o).counted_ids.card) ∧
    (processFrames line_y offset frames s).entered +
        (processFrames line_y offset frames s).exited =
      (processFrames line_y offset frames s).counted_ids.card ∧
    s.entered ≤ (processFrames line_y offset frames s).entered ∧
    s.exited ≤ (processFrames line_y offset frames s).exited ∧
    (processFrames line_y offset frames s).entered +
        (processFrames line_y offset frames s).exited ≤
      s.counted_ids.card + (runConfirmedIds frames).card := by
  refine ⟨fun s' o => invariant_step line_y offset s' o,
    invariant_run line_y offset frames s h,
    entered_mono_run line_y offset frames s,
    exited_mono_run line_y offset frames s, ?_⟩
  rw [invariant_run line_y offset frames s h]
  calc (processFrames line_y offset frames s).counted_ids.card
      ≤ (s.counted_ids ∪ runConfirmedIds frames).card :=
        Finset.card_le_card (counted_run_subset line_y offset frames s)
    _ ≤ s.counted_ids.card + (runConfirmedIds frames).card :=
        Finset.card_union_le _ _

/-- Witness for C9 on a two-frame run from the all-zero state in which
track 5 enters. -/
theorem C9_count_identity_invariant_witness :
    ((CounterState.mk 0 0 (fun _ => none) ∅).entered +
        (CounterState.mk 0 0 (fun _ => none) ∅).exited =
      (CounterState.mk 0 0 (fun _ => none) ∅).counted_ids.card) ∧
    ((processFrames 100 25 [[Track.mk 5 50 70 true], [Track.mk 5 130 150 true]]
          (CounterState.mk 0 0 (fun _ => none) ∅)).entered +
        (processFrames 100 25 [[Track.mk 5 50 70 true], [Track.mk 5 130 150 true]]
          (CounterState.mk 0 0 (fun _ => none) ∅)).exited =
      (processFrames 100 25 [[Track.mk 5 50 70 true], [Track.mk 5 130 150 true]]
          (CounterState.mk 0 0 (fun _ => none) ∅)).counted_ids.card ∧
      (CounterState.mk 0 0 (fun _ => none) ∅).entered ≤
        (processFrames 100 25 [[Track.mk 5 50 70 true], [Track.mk 5 130 150 true]]
          (CounterState.mk 0 0 (fun _ => none) ∅)).entered ∧
      (CounterState.mk 0 0 (fun _ => none) ∅).exited ≤
        (processFrames 100 25 [[Track.mk 5 50 70 true], [Track.mk 5 130 150 true]]
          (CounterState.mk 0 0 (fun _ => none) ∅)).exited ∧
      (processFrames 100 25 [[Track.mk 5 50 70 true], [Track.mk 5 130 150 true]]
            (CounterState.mk 0 0 (fun _ => none) ∅)).entered +
          (processFrames 100 25 [[Track.mk 5 50 70 true], [Track.mk 5 130 150 true]]
            (CounterState.mk 0 0 (fun _ => none) ∅)).exited ≤
        (CounterState.mk 0 0 (fun _ => none) ∅).counted_ids.card +
          (runConfirmedIds [[Track.mk 5 50 70 true], [Track.mk 5 130 150 true]]).card) :=
  ⟨by decide,
    (C9_count_identity_invariant 100 25
      [[Track.mk 5 50 70 true], [Track.mk 5 130 150 true]]
      (CounterState.mk 0 0 (fun _ => none) ∅) (by decide)).2⟩

/-! Embedding of `SettingsDatabase.update_setting` of
`src/admin_settings.py` (lines 193–225) as a pure relational model:
the `system_settings` table (its `setting_key` column carries a UNIQUE
constraint) and the `settings_history` audit table, each as a list of
rows; timestamp columns carry no logical content and are omitted. -/

/-- A row of `system_settings`, restricted to the columns
`update_setting` reads or writes. -/
structure SettingRow where
  id : Nat
  setting_key : String
  setting_value : String
  updated_by : String
deriving DecidableEq

/-- A row of `settings_history` as inserted by `update_setting`. -/
structure HistoryRow where
  setting_type : String
  setting_id : Option Nat
  old_value : String
  new_value : String
  changed_by : String
  change_reason : String
deriving DecidableEq

/-- The two tables touched by `update_setting`. -/
structure SettingsDb where
  system_settings : List SettingRow
  settings_history : List HistoryRow
deriving DecidableEq

/-- `SettingsDatabase.update_setting`: select the old value by key
(`fetchone` on the unique key is the first matching row); if absent,
close and report failure without any write; otherwise update the value
and `updated_by` of the keyed rows, insert exactly one history record
(whose `setting_id` is the keyed row's id via the sub-select), commit,
and report success. -/
def update_setting (db : SettingsDb) (setting_key new_value username reason : String) :
    (Bool × String) × SettingsDb :=
  match db.system_settings.find? (fun row => row.setting_key == setting_key) with
  | none => ((false, "Setting not found"), db)
  | some row =>
      let old_value := row.setting_value
      let updated := db.system_settings.map (fun r =>
        if r.setting_key == setting_key then
          { r with setting_value := new_value, updated_by := username }
        else r)
      let record : HistoryRow :=
        { setting_type := "system_setting"
          setting_id := some row.id
          old_value := old_value
          new_value := new_value
          changed_by := username
          change_reason := reason }
      ((true, "Setting updated successfully"),
        { system_settings := updated,
          settings_history := db.settings_history ++ [record] })

/-- C10: with an unknown key, `update_setting` returns failure with
message "Setting not found" and leaves both tables untouched; with a
known key it reports success, rewrites exactly the keyed rows' values,
and appends exactly one audit record. -/
theorem C10_update_setting_atomicity (db : SettingsDb)
    (setting_key new_value username reason : String) :
    (db.system_settings.find? (fun row => row.setting_key == setting_key) = none →
      update_setting db setting_key new_value username reason =
        ((false, "Setting not found"), db)) ∧
    (∀ row : SettingRow,
      db.system_settings.find? (fun r => r.setting_key == setting_key) = some row →
      (update_setting db setting_key new_value username reason).1 =
          (true, "Setting updated successfully") ∧
        (update_setting db setting_key new_value username reason).2.settings_history =
          db.settings_history ++
            [HistoryRow.mk "system_setting" (some row.id) row.setting_value
              new_value username reason] ∧
        (update_setting db setting_key new_value username reason).2.system_settings =
          db.system_settings.map (fun r =>
            if r.setting_key == setting_key then
              { r with setting_value := new_value, updated_by := username }
            else r)) := by
  constructor
  · intro h
    unfold update_setting
    rw [h]
  · intro row h
    unfold update_setting
    rw [h]
    exact ⟨rfl, rfl, rfl⟩

/-- Witness for C10 on a one-row table: a missing key fails and
changes nothing; the present key succeeds and appends one record. -/
theorem C10_update_setting_atomicity_witness :
    ((SettingsDb.mk [SettingRow.mk 1 "detection_fps" "10" "system"] []).system_settings.find?
        (fun row => row.setting_key == "missing_key") = none ∧
      update_setting (SettingsDb.mk [SettingRow.mk 1 "detection_fps" "10" "system"] [])
          "missing_key" "1" "admin" "" =
        ((false, "Setting not found"),
          SettingsDb.mk [SettingRow.mk 1 "detection_fps" "10" "system"] [])) ∧
    ((SettingsDb.mk [SettingRow.mk 1 "detection_fps" "10" "system"] []).system_settings.find?
        (fun r => r.setting_key == "detection_fps") =
        some (SettingRow.mk 1 "detection_fps" "10" "system") ∧
      (update_setting (SettingsDb.mk [SettingRow.mk 1 "detection_fps" "10" "system"] [])
            "detection_fps" "15" "admin" "tuning").1 =
          (true, "Setting updated successfully") ∧
        (update_setting (SettingsDb.mk [SettingRow.mk 1 "detection_fps" "10" "system"] [])
            "detection_fps" "15" "admin" "tuning").2.settings_history =
          (SettingsDb.mk [SettingRow.mk 1 "detection_fps" "10" "system"] []).settings_history ++
            [HistoryRow.mk "system_setting" (some 1) "10" "15" "admin" "tuning"] ∧
        (update_setting (SettingsDb.mk [SettingRow.mk 1 "detection_fps" "10" "system"] [])
            "detection_fps" "15" "admin" "tuning").2.system_settings =
          (SettingsDb.mk [SettingRow.mk 1 "detection_fps" "10" "system"] []).system_settings.map
            (fun r =>
              if r.setting_key == "detection_fps" then
                { r with setting_value := "15", updated_by := "admin" }
              else r)) :=
  ⟨⟨by decide,
      (C10_update_setting_atomicity
        (SettingsDb.mk [SettingRow.mk 1 "detection_fps" "10" "system"] [])
        "missing_key" "1" "admin" "").1 (by decide)⟩,
    ⟨by decide,
      (C10_update_setting_atomicity
        (SettingsDb.mk [SettingRow.mk 1 "detection_fps" "10" "system"] [])
        "detection_fps" "15" "admin" "tuning").2
        (SettingRow.mk 1 "detection_fps" "10" "system") (by decide)⟩⟩

end PeopleCounter
